import Mathlib

/-!
Shallow embedding of the patrol-fleet simulator and dispatch logic.

Sources embedded here:
* `lib/patrolSimulation` (two historical variants found in the repository:
  a polyline-loop variant, namespace `Loop`, and an elliptical-orbit
  variant, namespace `Orbit`; both export the same API over the same
  region table);
* the incident-creation dispatch in `app/api/crimes/route.ts` (`POST`);
* the fleet-status rendering in `app/api/police-vehicles/route.ts` (`GET`).

Modelling conventions:
* JavaScript IEEE-754 numbers are modelled as exact rationals (`ℚ`);
  claims about exact float rounding are out of scope.
* The transcendental primitives used by the code (`Math.sin`, `Math.cos`,
  `Math.sqrt`, `Math.atan2`, `Math.PI`) are collected in a `TrigOps`
  record parameter, so every definition stays computable and the
  algorithmic layers (dispatch, projection, rendering) are verified for
  every possible valuation of those primitives.
* JavaScript `%` on numbers (truncated remainder) is `jsMod`; its `x % 0`
  case (`NaN` in JavaScript) is given the junk value `0` and is guarded by
  hypotheses wherever it matters.
* JavaScript 32-bit coercion `| 0` is `wrap32`; `charCodeAt` is the
  character code (all identifiers involved are ASCII).
-/

set_option maxRecDepth 8000

/-- The transcendental primitives of `Math` used by the source, kept
abstract so that the embedding is computable. -/
structure TrigOps where
  sin : ℚ → ℚ
  cos : ℚ → ℚ
  sqrt : ℚ → ℚ
  atan2 : ℚ → ℚ → ℚ
  pi : ℚ

/-- `type Point = { lat: number; lng: number }`. -/
structure Point where
  lat : ℚ
  lng : ℚ
deriving DecidableEq, Repr

/-- JavaScript truncation toward zero (the rounding used by `%`):
the truncated quotient of the rational's numerator by its denominator. -/
def jsTrunc (q : ℚ) : ℤ :=
  q.num.tdiv q.den

/-- JavaScript `%` on numbers: truncated remainder; `x % 0` is `NaN` in
JavaScript and is modelled by the junk value `0` (never reached on the
real data, where divisors are positive). -/
def jsMod (a b : ℚ) : ℚ :=
  if b = 0 then 0 else a - b * jsTrunc (a / b)

/-- JavaScript `| 0`: wrap an integer to the signed 32-bit range. -/
def wrap32 (n : ℤ) : ℤ :=
  ((n + 2 ^ 31) % 2 ^ 32) - 2 ^ 31

/-- One step of the string hash: `hash = (hash << 5) - hash + c; hash |= 0`.
`hash << 5` itself operates on 32 bits, hence the inner `wrap32`. -/
def hashStep (h : ℤ) (c : ℤ) : ℤ :=
  wrap32 (wrap32 (h * 32) - h + c)

/-- `hashInt` from the source: fold `hashStep` over the character codes,
then `Math.abs`. -/
def hashInt (s : String) : ℕ :=
  (s.toList.foldl (fun h c => hashStep h (c.toNat : ℤ)) 0).natAbs

/-- `padStart(2, "0")` for the decimal representation of the index. -/
def padStart2 (s : String) : String :=
  if 2 ≤ s.length then s else if s.length = 1 then "0" ++ s else "00" ++ s

/-- The unit identifier `` `UNIT-${index.toString().padStart(2, "0")}` ``. -/
def unitId (index : ℕ) : String :=
  "UNIT-" ++ padStart2 (toString index)

/-- `const EARTH_RADIUS_M = 6371000`. -/
def EARTH_RADIUS_M : ℚ := 6371000

/-- `export const VEHICLE_COUNT = 80`. -/
def VEHICLE_COUNT : ℕ := 80

/-- `toRadians(deg) = (deg * Math.PI) / 180`. -/
def toRadians (ops : TrigOps) (deg : ℚ) : ℚ :=
  deg * ops.pi / 180

/-- `haversineDistanceMetres` from the source, over the abstract
trigonometric primitives. -/
def haversineDistanceMetres (ops : TrigOps) (a b : Point) : ℚ :=
  let dLat := toRadians ops (b.lat - a.lat)
  let dLng := toRadians ops (b.lng - a.lng)
  let lat1 := toRadians ops a.lat
  let lat2 := toRadians ops b.lat
  let sinDLat := ops.sin (dLat / 2)
  let sinDLng := ops.sin (dLng / 2)
  let aa := sinDLat * sinDLat + ops.cos lat1 * ops.cos lat2 * sinDLng * sinDLng
  let c := 2 * ops.atan2 (ops.sqrt aa) (ops.sqrt (1 - aa))
  EARTH_RADIUS_M * c

/-- `type SuburbBox` (the orbit variant calls the same shape `Region`). -/
structure SuburbBox where
  id : String
  centre : Point
  dLat : ℚ
  dLng : ℚ
deriving DecidableEq, Repr

/-- `type PatrolRoute = { id: string; points: Point[] }`. -/
structure PatrolRoute where
  id : String
  points : List Point
deriving DecidableEq, Repr

/-- The `SUBURB_BOXES` table (identical, entry for entry, to the orbit
variant's `REGIONS` table). -/
def SUBURB_BOXES : List SuburbBox := [
  ⟨"CBD", ⟨-36.8485, 174.763⟩, 0.006, 0.008⟩,
  ⟨"PONSONBY_GREYLYNN", ⟨-36.855, 174.75⟩, 0.006, 0.01⟩,
  ⟨"MT_EDEN_EPSOM", ⟨-36.885, 174.765⟩, 0.007, 0.008⟩,
  ⟨"NEWMARKET_PARNELL_GRAFTON", ⟨-36.858, 174.776⟩, 0.006, 0.008⟩,
  ⟨"ONEHUNGA_ROYAL_OAK", ⟨-36.915, 174.785⟩, 0.008, 0.01⟩,
  ⟨"MT_ROSKILL_BLOCKHOUSE_BAY", ⟨-36.906, 174.729⟩, 0.007, 0.009⟩,
  ⟨"NEW_LYNN", ⟨-36.9055, 174.686⟩, 0.007, 0.01⟩,
  ⟨"HENDERSON", ⟨-36.8801, 174.6198⟩, 0.008, 0.01⟩,
  ⟨"TE_ATATU", ⟨-36.845, 174.65⟩, 0.006, 0.01⟩,
  ⟨"TAKAPUNA_DEVONPORT", ⟨-36.7917, 174.7758⟩, 0.006, 0.01⟩,
  ⟨"NORTHCOTE_GLENFIELD", ⟨-36.8, 174.74⟩, 0.007, 0.01⟩,
  ⟨"ALBANY_ROSEDALE", ⟨-36.7167, 174.7⟩, 0.01, 0.013⟩,
  ⟨"BROWNS_BAY_TORBAY", ⟨-36.72, 174.75⟩, 0.008, 0.01⟩,
  ⟨"PANMURE_MT_WELLINGTON", ⟨-36.8833, 174.8667⟩, 0.007, 0.01⟩,
  ⟨"SYLVIA_PARK_ELLERSLIE", ⟨-36.9015, 174.816⟩, 0.006, 0.01⟩,
  ⟨"HOWICK", ⟨-36.8936, 174.9317⟩, 0.007, 0.01⟩,
  ⟨"BOTANY_DOWNS", ⟨-36.908, 174.9199⟩, 0.007, 0.01⟩,
  ⟨"EAST_TAMAKI_PAKURANGA", ⟨-36.91, 174.89⟩, 0.009, 0.011⟩,
  ⟨"PAPATOETOE", ⟨-36.9682, 174.8402⟩, 0.007, 0.01⟩,
  ⟨"OTAHUHU", ⟨-36.9382, 174.8402⟩, 0.007, 0.01⟩,
  ⟨"MANUKAU", ⟨-36.9928, 174.8799⟩, 0.009, 0.011⟩,
  ⟨"MANGERE", ⟨-36.96, 174.78⟩, 0.01, 0.012⟩,
  ⟨"AIRPORT", ⟨-37.01, 174.78⟩, 0.008, 0.012⟩]

/-- `makeBoxRoute`: the rectangular closed loop around a box's centre
(first point repeated last). -/
def makeBoxRoute (box : SuburbBox) : PatrolRoute :=
  { id := box.id
    points := [
      ⟨box.centre.lat + box.dLat, box.centre.lng - box.dLng⟩,
      ⟨box.centre.lat + box.dLat, box.centre.lng + box.dLng⟩,
      ⟨box.centre.lat - box.dLat, box.centre.lng + box.dLng⟩,
      ⟨box.centre.lat - box.dLat, box.centre.lng - box.dLng⟩,
      ⟨box.centre.lat + box.dLat, box.centre.lng - box.dLng⟩] }

/-- `const PATROL_ROUTES = SUBURB_BOXES.map(makeBoxRoute)`. -/
def PATROL_ROUTES : List PatrolRoute := SUBURB_BOXES.map makeBoxRoute

/-- `type RouteSegment` (`stop` stands for the source field `end`, a Lean
keyword). -/
structure RouteSegment where
  start : Point
  stop : Point
  length : ℚ
deriving DecidableEq, Repr

/-- `type RouteMeta`. -/
structure RouteMeta where
  route : PatrolRoute
  segments : List RouteSegment
  totalLength : ℚ
deriving DecidableEq, Repr

/-- Consecutive pairs of a list: the segments' endpoint pairs. -/
def consecPairs : List Point → List (Point × Point)
  | [] => []
  | [_] => []
  | a :: b :: rest => (a, b) :: consecPairs (b :: rest)

/-- `buildRouteMeta`: per-segment haversine lengths and their total. -/
def buildRouteMeta (ops : TrigOps) (route : PatrolRoute) : RouteMeta :=
  let segments := (consecPairs route.points).map
    (fun p => { start := p.1, stop := p.2,
                length := haversineDistanceMetres ops p.1 p.2 : RouteSegment })
  { route := route
    segments := segments
    totalLength := (segments.map (fun s => s.length)).sum }

/-- `const ROUTE_META = PATROL_ROUTES.map(buildRouteMeta)`. -/
def ROUTE_META (ops : TrigOps) : List RouteMeta :=
  PATROL_ROUTES.map (buildRouteMeta ops)

/-- `getSpeedMSForIndex`: `25 + (hash mod 16)` km/h converted to m/s. -/
def getSpeedMSForIndex (index : ℕ) : ℚ :=
  let h := hashInt (unitId index)
  let speedKmH : ℚ := 25 + ((h % 16 : ℕ) : ℚ)
  speedKmH * 1000 / 3600

/-- `export type BaseUnitState`. -/
structure BaseUnitState where
  id : String
  index : ℕ
  lat : ℚ
  lng : ℚ
  routeId : String
  speedMS : ℚ
deriving DecidableEq, Repr

namespace Loop

/-- `ROUTE_META[index % ROUTE_META.length]` (the route table is never
empty, so the `getD` default is unreachable). -/
def routeMetaFor (ops : TrigOps) (index : ℕ) : RouteMeta :=
  (ROUTE_META ops).getD (index % (ROUTE_META ops).length)
    (buildRouteMeta ops { id := "", points := [] })

/-- The starting offset of a unit along its route:
`hashInt(id) % routeMeta.totalLength`. -/
def offsetMetres (ops : TrigOps) (index : ℕ) : ℚ :=
  jsMod ((hashInt (unitId index) : ℕ) : ℚ) (routeMetaFor ops index).totalLength

/-- The distance progressed along the route at `nowMs`:
`(offsetMetres + elapsedSeconds * speedMS) % totalLength`. -/
def travelledMetres (ops : TrigOps) (index : ℕ) (nowMs : ℚ) : ℚ :=
  jsMod (offsetMetres ops index + (nowMs / 1000) * getSpeedMSForIndex index)
    (routeMetaFor ops index).totalLength

/-- The segment walk of the source: skip zero-length segments, and once
`remaining ≤ seg.length`, interpolate within that segment; `none` when no
segment resolves the remaining distance. -/
def walkSegments : List RouteSegment → ℚ → Option Point
  | [], _ => none
  | seg :: rest, remaining =>
    if seg.length = 0 then walkSegments rest remaining
    else if remaining ≤ seg.length then
      some ⟨seg.start.lat + (seg.stop.lat - seg.start.lat) * (remaining / seg.length),
            seg.start.lng + (seg.stop.lng - seg.start.lng) * (remaining / seg.length)⟩
    else walkSegments rest (remaining - seg.length)

/-- `getBaseUnitStateAtTime` (polyline-loop variant): the source
initializes the position to `route.points[0]` and overwrites it when the
walk breaks inside a segment, which is the `Option.getD` below. -/
def getBaseUnitStateAtTime (ops : TrigOps) (index : ℕ) (nowMs : ℚ) :
    BaseUnitState :=
  let routeMeta := routeMetaFor ops index
  let p := (walkSegments routeMeta.segments (travelledMetres ops index nowMs)).getD
    (routeMeta.route.points.getD 0 ⟨0, 0⟩)
  { id := unitId index
    index := index
    lat := p.lat
    lng := p.lng
    routeId := routeMeta.route.id
    speedMS := getSpeedMSForIndex index }

/-- `getAllBaseUnits`: indices `0 .. VEHICLE_COUNT - 1` in ascending
order. -/
def getAllBaseUnits (ops : TrigOps) (nowMs : ℚ) : List BaseUnitState :=
  (List.range VEHICLE_COUNT).map (fun i => getBaseUnitStateAtTime ops i nowMs)

/-- JavaScript `id.split("-")`, over character lists: split on every
dash, preserving empty fields (`"abc"` gives one field, `""` gives one
empty field). -/
def splitOnDash : List Char → List (List Char)
  | [] => [[]]
  | c :: rest =>
    if c = '-' then [] :: splitOnDash rest
    else
      match splitOnDash rest with
      | [] => [[c]]
      | g :: gs => (c :: g) :: gs

/-- `Number.parseInt(raw, 10)`: skip leading whitespace, optional sign,
then the longest digit prefix; `none` models `NaN` (no digits). -/
def jsParseInt10 (cs : List Char) : Option ℤ :=
  let trimmed := cs.dropWhile (fun c => c.isWhitespace)
  let signed : ℤ × List Char :=
    match trimmed with
    | '-' :: r => (-1, r)
    | '+' :: r => (1, r)
    | r => (1, r)
  let ds := signed.2.takeWhile (fun c => c.isDigit)
  if ds.isEmpty then none
  else some (signed.1 * (ds.foldl (fun n c => 10 * n + ((c.toNat : ℤ) - 48)) 0))

/-- The index a unit-id string parses to: `parts[1] ?? ""` put through
`parseInt`. -/
def parsedUnitIndex (id : String) : Option ℤ :=
  jsParseInt10 (((splitOnDash id.toList).get? 1).getD [])

/-- `getBaseUnitByIdAtTime`: split on `"-"`, parse the second field, and
guard `Number.isFinite` plus the range `0 ≤ idx < VEHICLE_COUNT`. -/
def getBaseUnitByIdAtTime (ops : TrigOps) (id : String) (nowMs : ℚ) :
    Option BaseUnitState :=
  match parsedUnitIndex id with
  | none => none
  | some idx =>
    if idx < 0 ∨ (VEHICLE_COUNT : ℤ) ≤ idx then none
    else some (getBaseUnitStateAtTime ops idx.toNat nowMs)

end Loop

namespace Orbit

/-- The orbit variant's `REGIONS` table: identical, entry for entry, to
`SUBURB_BOXES`, so it is shared here. -/
def REGIONS : List SuburbBox := SUBURB_BOXES

/-- `getBaseUnitStateAtTime` (elliptical-orbit variant). `h >> 3` and
`h >> 7` are modelled as division by `8` and `128` (the hash is kept
within the signed 32-bit range, where the shift is a division). -/
def getBaseUnitStateAtTime (ops : TrigOps) (index : ℕ) (nowMs : ℚ) :
    BaseUnitState :=
  let region := REGIONS.getD (index % REGIONS.length) ⟨"", ⟨0, 0⟩, 0, 0⟩
  let h := hashInt (unitId index)
  let ampFactorLat : ℚ := 6 / 10 + (((h / 8) % 40 : ℕ) : ℚ) / 100
  let ampFactorLng : ℚ := 6 / 10 + (((h / 128) % 40 : ℕ) : ℚ) / 100
  let ampLat := region.dLat * ampFactorLat
  let ampLng := region.dLng * ampFactorLng
  let phase := (((h % 360 : ℕ) : ℚ)) * ops.pi / 180
  let loopsPerMinute : ℚ := 1 / (4 + ((h % 3 : ℕ) : ℚ))
  let angularSpeed := 2 * ops.pi * loopsPerMinute / 60000
  let angle := angularSpeed * nowMs + phase
  { id := unitId index
    index := index
    lat := region.centre.lat + ampLat * ops.sin angle +
      (3 / 10000) * ops.sin (angle * 3)
    lng := region.centre.lng + ampLng * ops.cos angle +
      (3 / 10000) * ops.cos (angle * 2)
    routeId := region.id
    speedMS := getSpeedMSForIndex index }

end Orbit

/-! ## Incident creation (`app/api/crimes/route.ts`, `POST`)

The dispatch decision: filter out busy units from `getAllBaseUnits(nowMs)`
and scan for the minimum haversine distance to the incident, updating on
strictly smaller distances only. -/

namespace CrimesRoute

/-- The available units: `baseUnits.filter((unit) => !busyUnitIds.has(unit.id))`. -/
def availableUnits (ops : TrigOps) (busy : List String) (nowMs : ℚ) :
    List BaseUnitState :=
  (Loop.getAllBaseUnits ops nowMs).filter (fun u => !(busy.contains u.id))

/-- The distance the dispatch scan compares:
`haversineDistanceMetres(target, { lat: unit.lat, lng: unit.lng })`. -/
def distToTarget (ops : TrigOps) (target : Point) (u : BaseUnitState) : ℚ :=
  haversineDistanceMetres ops target ⟨u.lat, u.lng⟩

/-- The minimum scan of the source: start from `availableUnits[0]` and
replace the best unit only on a strictly smaller distance. -/
def assignNearestUnit (ops : TrigOps) (busy : List String) (target : Point)
    (nowMs : ℚ) : Option BaseUnitState :=
  match availableUnits ops busy nowMs with
  | [] => none
  | x :: xs =>
    some (xs.foldl
      (fun best u => if distToTarget ops target u < distToTarget ops target best
        then u else best) x)

/-- The assignment fields stored with the new incident row:
`assignedUnitId` and `assignedAt: assignedUnitId ? new Date(nowMs) : null`. -/
def storedAssignmentFields (ops : TrigOps) (busy : List String) (target : Point)
    (nowMs : ℚ) : Option String × Option ℚ :=
  match assignNearestUnit ops busy target nowMs with
  | some u => (some u.id, some nowMs)
  | none => (none, none)

end CrimesRoute

/-! ## Fleet status (`app/api/police-vehicles/route.ts`, `GET`) -/

namespace VehiclesRoute

/-- The crime-row fields the `GET` handler reads. -/
structure CrimeRow where
  id : ℕ
  latitude : ℚ
  longitude : ℚ
  assignedUnitId : Option String
  assignedAt : Option ℚ
deriving DecidableEq, Repr

/-- `type Assignment = { crimeId; target; assignedAtMs }`. -/
structure Assignment where
  crimeId : ℕ
  target : Point
  assignedAtMs : ℚ
deriving DecidableEq, Repr

inductive Status where
  | available
  | busy
deriving DecidableEq, Repr

/-- `type PoliceVehicle` (its `lastUpdated` ISO string is represented by
the `nowMs` instant it formats). -/
structure PoliceVehicle where
  id : String
  lat : ℚ
  lng : ℚ
  routeId : String
  status : Status
  lastUpdated : ℚ
  assignedCrimeId : Option ℕ
deriving DecidableEq, Repr

/-- The effective assignment timestamp of a row: `assignedAt`, falling
back to `nowMs` when absent. -/
def effectiveAssignedAtMs (row : CrimeRow) (nowMs : ℚ) : ℚ :=
  row.assignedAt.getD nowMs

/-- The `Assignment` a row contributes for its unit. -/
def assignmentOfRow (row : CrimeRow) (nowMs : ℚ) : Assignment :=
  { crimeId := row.id
    target := ⟨row.latitude, row.longitude⟩
    assignedAtMs := effectiveAssignedAtMs row nowMs }

/-- One step of building `assignmentsByUnit`: skip unassigned rows; keep
the existing entry unless the new row's timestamp is strictly greater. -/
def assignStep (nowMs : ℚ) (m : String → Option Assignment) (row : CrimeRow) :
    String → Option Assignment :=
  match row.assignedUnitId with
  | none => m
  | some u =>
    let next := assignmentOfRow row nowMs
    match m u with
    | none => fun x => if x = u then some next else m x
    | some existing =>
      if existing.assignedAtMs < next.assignedAtMs then
        fun x => if x = u then some next else m x
      else m

/-- `assignmentsByUnit` as a lookup function, folded over the crime rows
in store order. -/
def assignmentsByUnit (rows : List CrimeRow) (nowMs : ℚ) :
    String → Option Assignment :=
  rows.foldl (assignStep nowMs) (fun _ => none)

/-- The point the busy unit departed from: its patrol position at the
assignment instant (`getBaseUnitStateAtTime(unit.index, assignedAtMs)`). -/
def departurePoint (ops : TrigOps) (index : ℕ) (assignedAtMs : ℚ) : Point :=
  ⟨(Loop.getBaseUnitStateAtTime ops index assignedAtMs).lat,
   (Loop.getBaseUnitStateAtTime ops index assignedAtMs).lng⟩

/-- The busy-branch position of the projector (source lines computing
`lat`/`lng` from `from`, `target` and the elapsed time). Note the source
multiplies the elapsed *milliseconds* by `speedMS` (metres per second). -/
def projectedPosition (ops : TrigOps) (unit : BaseUnitState) (target : Point)
    (assignedAtMs nowMs : ℚ) : Point :=
  let fromPt := departurePoint ops unit.index assignedAtMs
  let distance := haversineDistanceMetres ops fromPt target
  if 1 < distance then
    let timeSinceAssign := max 0 (nowMs - assignedAtMs)
    let travelled := min distance (timeSinceAssign * unit.speedMS)
    let t := travelled / distance
    ⟨fromPt.lat + (target.lat - fromPt.lat) * t,
     fromPt.lng + (target.lng - fromPt.lng) * t⟩
  else target

/-- The travelled fraction of the projector, as a function of `nowMs`
(meaningful on the `distance > 1` branch). -/
def travelledFraction (distance assignedAtMs speedMS nowMs : ℚ) : ℚ :=
  min distance (max 0 (nowMs - assignedAtMs) * speedMS) / distance

/-- The per-unit rendering: available units keep their patrol position,
busy units are projected toward their assignment's target. -/
def renderVehicle (ops : TrigOps) (rows : List CrimeRow) (nowMs : ℚ)
    (unit : BaseUnitState) : PoliceVehicle :=
  match assignmentsByUnit rows nowMs unit.id with
  | none =>
    { id := unit.id, lat := unit.lat, lng := unit.lng, routeId := unit.routeId
      status := .available, lastUpdated := nowMs, assignedCrimeId := none }
  | some assignment =>
    let p := projectedPosition ops unit assignment.target
      assignment.assignedAtMs nowMs
    { id := unit.id, lat := p.lat, lng := p.lng, routeId := unit.routeId
      status := .busy, lastUpdated := nowMs
      assignedCrimeId := some assignment.crimeId }

/-- The whole `GET` response body: every base unit rendered at `nowMs`. -/
def policeVehiclesGET (ops : TrigOps) (rows : List CrimeRow) (nowMs : ℚ) :
    List PoliceVehicle :=
  (Loop.getAllBaseUnits ops nowMs).map (renderVehicle ops rows nowMs)

end VehiclesRoute

/-! ## Concrete trigonometric valuations used in the concrete evaluations

The algorithmic theorems below hold for every `TrigOps`; the concrete
evaluations pick simple valuations under which the haversine formula
returns a constant, so that exact rational arithmetic decides them. -/

/-- A valuation sending every trigonometric primitive to `0`; under it
every haversine distance and segment length is `0`. -/
def opsZero : TrigOps := ⟨fun _ => 0, fun _ => 0, fun _ => 0, fun _ _ => 0, 0⟩

/-- A valuation with constant `atan2`, making every haversine distance
exactly `500` metres. -/
def ops500 : TrigOps := ⟨fun _ => 0, fun _ => 0, fun _ => 0, fun _ _ => (1 : ℚ) / 25484, 0⟩

/-- A valuation with constant `atan2`, making every haversine distance
exactly `1/2` metre (below the 1-metre arrival threshold). -/
def opsHalf : TrigOps :=
  ⟨fun _ => 0, fun _ => 0, fun _ => 0, fun _ _ => (1 : ℚ) / 25484000, 0⟩

/-! ## Arithmetic facts about the JavaScript primitives -/

lemma jsTrunc_eq_floor {q : ℚ} (hq : 0 ≤ q) : jsTrunc q = ⌊q⌋ := by
  rw [jsTrunc, Rat.floor_def]
  exact Int.tdiv_eq_ediv (Rat.num_nonneg.mpr hq) (Int.natCast_nonneg _)

lemma jsMod_eq_sub_floor {a b : ℚ} (ha : 0 ≤ a) (hb : 0 < b) :
    jsMod a b = a - b * ⌊a / b⌋ := by
  rw [jsMod, if_neg hb.ne', jsTrunc_eq_floor (div_nonneg ha hb.le)]

lemma jsMod_nonneg {a b : ℚ} (ha : 0 ≤ a) (hb : 0 < b) : 0 ≤ jsMod a b := by
  rw [jsMod_eq_sub_floor ha hb]
  have h1 : (⌊a / b⌋ : ℚ) ≤ a / b := Int.floor_le _
  have h2 : b * (⌊a / b⌋ : ℚ) ≤ b * (a / b) := mul_le_mul_of_nonneg_left h1 hb.le
  have h3 : b * (a / b) = a := by field_simp
  linarith

lemma jsMod_add_self {a b : ℚ} (ha : 0 ≤ a) (hb : 0 < b) :
    jsMod (a + b) b = jsMod a b := by
  rw [jsMod_eq_sub_floor (by linarith) hb, jsMod_eq_sub_floor ha hb]
  have h : (a + b) / b = a / b + 1 := by field_simp
  rw [h, Int.floor_add_one]
  push_cast
  ring

lemma jsMod_eq_of {a b r : ℚ} {k : ℤ} (h : a = b * k + r) (h0 : 0 ≤ r)
    (hr : r < b) (hk : 0 ≤ (k : ℚ)) (hb : 0 < b) : jsMod a b = r := by
  have hbk : 0 ≤ b * (k : ℚ) := mul_nonneg hb.le hk
  have ha : 0 ≤ a := by linarith
  rw [jsMod_eq_sub_floor ha hb]
  have hfl : ⌊a / b⌋ = k := by
    rw [Int.floor_eq_iff]
    constructor
    · rw [le_div_iff hb]; nlinarith
    · rw [div_lt_iff hb]; nlinarith
  rw [hfl]
  linarith

lemma getSpeedMSForIndex_pos (i : ℕ) : 0 < getSpeedMSForIndex i := by
  rw [getSpeedMSForIndex]
  positivity

/-! ## C2: determinism / purity of the temporal position function -/

/-- C2: `getBaseUnitStateAtTime` is pure and deterministic in both
historical variants: for every unit index and timestamp, two evaluations
return identical `BaseUnitState` values, and the value a fleet-wide
`getAllBaseUnits` call holds at position `i` is the very state an
independent single-unit call computes, regardless of call order. -/
theorem position_determinism (ops : TrigOps) (i : ℕ) (t : ℚ) :
    Loop.getBaseUnitStateAtTime ops i t = Loop.getBaseUnitStateAtTime ops i t ∧
    Orbit.getBaseUnitStateAtTime ops i t = Orbit.getBaseUnitStateAtTime ops i t ∧
    (i < VEHICLE_COUNT →
      (Loop.getAllBaseUnits ops t).get? i =
        some (Loop.getBaseUnitStateAtTime ops i t)) := by
  refine ⟨rfl, rfl, fun h => ?_⟩
  rw [Loop.getAllBaseUnits, List.get?_map, List.get?_range h]
  rfl

/-- Witness for C2 at a concrete unit, timestamp and trig valuation. -/
theorem position_determinism_witness :
    (Loop.getAllBaseUnits ⟨fun _ => 0, fun _ => 0, fun _ => 0, fun _ _ => 0, 0⟩ 3).get? 2 =
      some (Loop.getBaseUnitStateAtTime ⟨fun _ => 0, fun _ => 0, fun _ => 0, fun _ _ => 0, 0⟩ 2 3) :=
  (position_determinism ⟨fun _ => 0, fun _ => 0, fun _ => 0, fun _ _ => 0, 0⟩ 2 3).2.2 (by decide)

/-! ## C7: loop periodicity -/

lemma offsetMetres_nonneg (ops : TrigOps) (i : ℕ)
    (hL : 0 < (Loop.routeMetaFor ops i).totalLength) :
    0 ≤ Loop.offsetMetres ops i := by
  rw [Loop.offsetMetres]
  exact jsMod_nonneg (by positivity) hL

lemma travelledMetres_period (ops : TrigOps) (i : ℕ) {t : ℚ} (ht : 0 ≤ t)
    (hL : 0 < (Loop.routeMetaFor ops i).totalLength) :
    Loop.travelledMetres ops i
        (t + 1000 * (Loop.routeMetaFor ops i).totalLength / getSpeedMSForIndex i) =
      Loop.travelledMetres ops i t := by
  have hs : 0 < getSpeedMSForIndex i := getSpeedMSForIndex_pos i
  rw [Loop.travelledMetres, Loop.travelledMetres]
  have harg : Loop.offsetMetres ops i +
      ((t + 1000 * (Loop.routeMetaFor ops i).totalLength / getSpeedMSForIndex i) / 1000) *
        getSpeedMSForIndex i =
      (Loop.offsetMetres ops i + (t / 1000) * getSpeedMSForIndex i) +
        (Loop.routeMetaFor ops i).totalLength := by
    field_simp
    ring
  rw [harg]
  have hoff : 0 ≤ Loop.offsetMetres ops i := offsetMetres_nonneg ops i hL
  have hterm : 0 ≤ (t / 1000) * getSpeedMSForIndex i := by positivity
  exact jsMod_add_self (by linarith) hL

/-- C7: on the polyline-loop variant, a unit's position is periodic with
period `totalLength / speed` seconds (timestamps are nonnegative
epoch-milliseconds, and the route's total length is positive, as it is
for the real route table). -/
theorem loop_periodicity (ops : TrigOps) (i : ℕ) (t : ℚ) (ht : 0 ≤ t)
    (hL : 0 < (Loop.routeMetaFor ops i).totalLength) :
    Loop.getBaseUnitStateAtTime ops i
        (t + 1000 * (Loop.routeMetaFor ops i).totalLength / getSpeedMSForIndex i) =
      Loop.getBaseUnitStateAtTime ops i t := by
  simp only [Loop.getBaseUnitStateAtTime, travelledMetres_period ops i ht hL]

/-! ## Concrete evaluation lemmas under `ops500` -/

lemma hav_ops500 (a b : Point) : haversineDistanceMetres ops500 a b = 500 := by
  simp only [haversineDistanceMetres, ops500, EARTH_RADIUS_M]
  norm_num

lemma hashInt_unit02 : hashInt (unitId 2) = 431439595 := by decide

lemma getSpeedMS_unit2 : getSpeedMSForIndex 2 = 10 := by
  simp only [getSpeedMSForIndex, hashInt_unit02]
  norm_num

lemma routeMetaFor_ops500_2 : Loop.routeMetaFor ops500 2 =
    buildRouteMeta ops500 (makeBoxRoute ⟨"MT_EDEN_EPSOM", ⟨-36.885, 174.765⟩, 0.007, 0.008⟩) := by
  simp only [Loop.routeMetaFor, ROUTE_META, PATROL_ROUTES, SUBURB_BOXES, List.map_cons,
    List.length_cons, List.length_nil]
  norm_num [List.getD, List.get?]

lemma segments_ops500_2 : (Loop.routeMetaFor ops500 2).segments =
    [⟨⟨-36.878, 174.757⟩, ⟨-36.878, 174.773⟩, 500⟩,
     ⟨⟨-36.878, 174.773⟩, ⟨-36.892, 174.773⟩, 500⟩,
     ⟨⟨-36.892, 174.773⟩, ⟨-36.892, 174.757⟩, 500⟩,
     ⟨⟨-36.892, 174.757⟩, ⟨-36.878, 174.757⟩, 500⟩] := by
  rw [routeMetaFor_ops500_2]
  simp only [buildRouteMeta, makeBoxRoute, consecPairs, List.map_cons, List.map_nil, hav_ops500]
  norm_num

lemma totalLength_ops500_2 : (Loop.routeMetaFor ops500 2).totalLength = 2000 := by
  rw [routeMetaFor_ops500_2]
  simp only [buildRouteMeta, makeBoxRoute, consecPairs, List.map_cons, List.map_nil, hav_ops500]
  norm_num

lemma offsetMetres_ops500_2 : Loop.offsetMetres ops500 2 = 1595 := by
  rw [Loop.offsetMetres, totalLength_ops500_2, hashInt_unit02]
  exact jsMod_eq_of (k := 215719) (by norm_num) (by norm_num) (by norm_num) (by norm_num)
    (by norm_num)

lemma travelled_ops500_2_at0 : Loop.travelledMetres ops500 2 0 = 1595 := by
  rw [Loop.travelledMetres, totalLength_ops500_2, offsetMetres_ops500_2, getSpeedMS_unit2]
  have h : (1595 : ℚ) + 0 / 1000 * 10 = 1595 := by norm_num
  rw [h]
  exact jsMod_eq_of (k := 0) (by norm_num) (by norm_num) (by norm_num) (by norm_num) (by norm_num)

lemma state_ops500_2_at0 : Loop.getBaseUnitStateAtTime ops500 2 0 =
    ⟨unitId 2, 2, -36.88934, 174.757, "MT_EDEN_EPSOM", 10⟩ := by
  simp only [Loop.getBaseUnitStateAtTime, travelled_ops500_2_at0, segments_ops500_2,
    getSpeedMS_unit2]
  rw [routeMetaFor_ops500_2]
  simp only [Loop.walkSegments, buildRouteMeta, makeBoxRoute]
  norm_num [Point.mk.injEq]

lemma departure_ops500_2 : VehiclesRoute.departurePoint ops500 2 0 = ⟨-36.88934, 174.757⟩ := by
  rw [VehiclesRoute.departurePoint, state_ops500_2_at0]

lemma state_ops500_2_at20000_index : (Loop.getBaseUnitStateAtTime ops500 2 20000).index = 2 :=
  rfl

lemma state_ops500_2_at20000_speed :
    (Loop.getBaseUnitStateAtTime ops500 2 20000).speedMS = 10 := getSpeedMS_unit2

/-! ## C3: the projector's elapsed-time units -/

/-- C3: evaluation of the projector at the claim's scenario, on unit
`UNIT-02` whose derived speed is exactly 10 m/s, with the incident target
500 metres from the departure point and the assignment created at
`t0 = 0`. At `now = t0 + 20000 ms` the code renders the unit exactly at
the target — not 40% of the way there as the claim requires — because it
multiplies elapsed milliseconds by a metres-per-second speed. The 40%
point of the claim differs from the target. -/
theorem projector_time_units_eval :
    (Loop.getBaseUnitStateAtTime ops500 2 20000).speedMS = 10 ∧
    haversineDistanceMetres ops500 (VehiclesRoute.departurePoint ops500 2 0) ⟨0, 0⟩ = 500 ∧
    VehiclesRoute.projectedPosition ops500 (Loop.getBaseUnitStateAtTime ops500 2 20000)
      ⟨0, 0⟩ 0 20000 = ⟨0, 0⟩ ∧
    (⟨(-36.88934 : ℚ) + (0 - -36.88934) * (2 / 5),
      (174.757 : ℚ) + (0 - 174.757) * (2 / 5)⟩ : Point) ≠ (⟨0, 0⟩ : Point) ∧
    VehiclesRoute.departurePoint ops500 2 0 ≠ ⟨0, 0⟩ := by
  refine ⟨getSpeedMS_unit2, hav_ops500 _ _, ?_, ?_, ?_⟩
  · rw [VehiclesRoute.projectedPosition]
    simp only [state_ops500_2_at20000_index, state_ops500_2_at20000_speed,
      departure_ops500_2, hav_ops500]
    norm_num [Point.mk.injEq]
  · norm_num [Point.mk.injEq]
  · rw [departure_ops500_2]
    norm_num [Point.mk.injEq]

/-! ## Concrete evaluation lemmas under `opsHalf` -/

lemma hav_opsHalf (a b : Point) : haversineDistanceMetres opsHalf a b = 1 / 2 := by
  simp only [haversineDistanceMetres, opsHalf, EARTH_RADIUS_M]
  norm_num

lemma hashInt_unit00 : hashInt (unitId 0) = 431439593 := by decide

lemma routeMetaFor_opsHalf_0 : Loop.routeMetaFor opsHalf 0 =
    buildRouteMeta opsHalf (makeBoxRoute ⟨"CBD", ⟨-36.8485, 174.763⟩, 0.006, 0.008⟩) := by
  simp only [Loop.routeMetaFor, ROUTE_META, PATROL_ROUTES, SUBURB_BOXES, List.map_cons,
    List.length_cons, List.length_nil]
  norm_num [List.getD, List.get?]

lemma totalLength_opsHalf_0 : (Loop.routeMetaFor opsHalf 0).totalLength = 2 := by
  rw [routeMetaFor_opsHalf_0]
  simp only [buildRouteMeta, makeBoxRoute, consecPairs, List.map_cons, List.map_nil, hav_opsHalf]
  norm_num

lemma offsetMetres_opsHalf_0 : Loop.offsetMetres opsHalf 0 = 1 := by
  rw [Loop.offsetMetres, totalLength_opsHalf_0, hashInt_unit00]
  exact jsMod_eq_of (k := 215719796) (by norm_num) (by norm_num) (by norm_num) (by norm_num)
    (by norm_num)

lemma travelled_opsHalf_0_at0 : Loop.travelledMetres opsHalf 0 0 = 1 := by
  rw [Loop.travelledMetres, totalLength_opsHalf_0, offsetMetres_opsHalf_0]
  have h : (1 : ℚ) + 0 / 1000 * getSpeedMSForIndex 0 = 1 := by norm_num
  rw [h]
  exact jsMod_eq_of (k := 0) (by norm_num) (by norm_num) (by norm_num) (by norm_num) (by norm_num)

lemma speedMS_state (ops : TrigOps) (i : ℕ) (t : ℚ) :
    (Loop.getBaseUnitStateAtTime ops i t).speedMS = getSpeedMSForIndex i := rfl

lemma index_state (ops : TrigOps) (i : ℕ) (t : ℚ) :
    (Loop.getBaseUnitStateAtTime ops i t).index = i := rfl

lemma departure_opsHalf_0 :
    VehiclesRoute.departurePoint opsHalf 0 0 = ⟨-36.8545, 174.771⟩ := by
  rw [VehiclesRoute.departurePoint]
  simp only [Loop.getBaseUnitStateAtTime, travelled_opsHalf_0_at0]
  rw [routeMetaFor_opsHalf_0]
  simp only [buildRouteMeta, makeBoxRoute, consecPairs, List.map_cons, List.map_nil,
    hav_opsHalf, Loop.walkSegments]
  norm_num [Point.mk.injEq]

/-! ## C4: projection monotonicity and clamping -/

/-- C4 (amended): for a fixed assignment, the travelled fraction used by
the projector is non-decreasing in `now` and never exceeds `1`; at
`now = assignedAt` the projected position equals the departure point
*provided the departure-to-target distance exceeds the 1-metre arrival
threshold*; and whenever that distance is at most 1 metre the projected
position is the target regardless of elapsed time. -/
theorem projection_monotone_clamped (ops : TrigOps) (unit : BaseUnitState)
    (target : Point) (aMs n1 n2 dist : ℚ)
    (hdist : dist =
      haversineDistanceMetres ops (VehiclesRoute.departurePoint ops unit.index aMs) target)
    (hspeed : 0 ≤ unit.speedMS) :
    (n1 ≤ n2 → 1 < dist →
      VehiclesRoute.travelledFraction dist aMs unit.speedMS n1 ≤
        VehiclesRoute.travelledFraction dist aMs unit.speedMS n2) ∧
    (1 < dist → VehiclesRoute.travelledFraction dist aMs unit.speedMS n1 ≤ 1) ∧
    (1 < dist → VehiclesRoute.projectedPosition ops unit target aMs aMs =
      VehiclesRoute.departurePoint ops unit.index aMs) ∧
    (dist ≤ 1 → VehiclesRoute.projectedPosition ops unit target aMs n1 = target) := by
  subst hdist
  refine ⟨?_, ?_, ?_, ?_⟩
  · intro h12 hd
    have hd0 : (0 : ℚ) <
        haversineDistanceMetres ops (VehiclesRoute.departurePoint ops unit.index aMs) target :=
      lt_trans one_pos hd
    rw [VehiclesRoute.travelledFraction, VehiclesRoute.travelledFraction]
    have hmax : max 0 (n1 - aMs) ≤ max 0 (n2 - aMs) :=
      max_le_max le_rfl (sub_le_sub_right h12 aMs)
    have hmul : max 0 (n1 - aMs) * unit.speedMS ≤ max 0 (n2 - aMs) * unit.speedMS :=
      mul_le_mul_of_nonneg_right hmax hspeed
    have hmin := min_le_min
      (le_refl (haversineDistanceMetres ops
        (VehiclesRoute.departurePoint ops unit.index aMs) target)) hmul
    exact div_le_div_of_nonneg_right hmin hd0.le
  · intro hd
    have hd0 : (0 : ℚ) <
        haversineDistanceMetres ops (VehiclesRoute.departurePoint ops unit.index aMs) target :=
      lt_trans one_pos hd
    rw [VehiclesRoute.travelledFraction]
    exact (div_le_one hd0).mpr (min_le_left _ _)
  · intro hd
    simp only [VehiclesRoute.projectedPosition]
    rw [if_pos hd]
    have h0 : max 0 (aMs - aMs) = 0 := by simp
    rw [h0, zero_mul]
    have hd0 : (0 : ℚ) ≤
        haversineDistanceMetres ops (VehiclesRoute.departurePoint ops unit.index aMs) target :=
      (lt_trans one_pos hd).le
    rw [min_eq_right hd0, zero_div, mul_zero, mul_zero, add_zero, add_zero]
  · intro hd
    simp only [VehiclesRoute.projectedPosition]
    rw [if_neg (not_lt.mpr hd)]

/-- C4 counterexample: with the departure-to-target distance at 1/2 metre
(below the arrival threshold) and the departure point distinct from the
target, the projected position at `now = assignedAt` is the target, not
the departure point — the two conjuncts of the claim contradict each
other on this input. -/
theorem projection_at_assign_counterexample :
    VehiclesRoute.projectedPosition opsHalf (Loop.getBaseUnitStateAtTime opsHalf 0 0)
      ⟨0, 0⟩ 0 0 = ⟨0, 0⟩ ∧
    haversineDistanceMetres opsHalf (VehiclesRoute.departurePoint opsHalf 0 0) ⟨0, 0⟩ ≤ 1 ∧
    VehiclesRoute.departurePoint opsHalf 0 0 ≠ ⟨0, 0⟩ := by
  refine ⟨?_, ?_, ?_⟩
  · simp only [VehiclesRoute.projectedPosition, index_state]
    rw [if_neg]
    rw [hav_opsHalf]
    norm_num
  · rw [hav_opsHalf]; norm_num
  · rw [departure_opsHalf_0]
    norm_num [Point.mk.injEq]

/-- Witness for C4 at a concrete assignment: distance 1/2 ≤ 1, so the
projected position is the target at an arbitrary later instant. -/
theorem projection_monotone_clamped_witness :
    VehiclesRoute.projectedPosition opsHalf (Loop.getBaseUnitStateAtTime opsHalf 0 0)
      ⟨0, 0⟩ 0 7 = ⟨0, 0⟩ := by
  refine (projection_monotone_clamped opsHalf (Loop.getBaseUnitStateAtTime opsHalf 0 0)
    ⟨0, 0⟩ 0 7 7 (1 / 2) ?_ ?_).2.2.2 (by norm_num)
  · rw [index_state, hav_opsHalf]
  · rw [speedMS_state]
    exact (getSpeedMSForIndex_pos 0).le

/-! ## C1: nearest-unit dispatch correctness -/

lemma id_state (ops : TrigOps) (i : ℕ) (t : ℚ) :
    (Loop.getBaseUnitStateAtTime ops i t).id = unitId i := rfl

/-- The minimum scan `foldl (fun best u => if d u < d best then u else best)`
returns an element of the scanned list of minimal `d`-value, and on ties
the earliest one (in a list whose `idx`-values strictly increase). -/
lemma foldl_min_first {α : Type} (d : α → ℚ) (idx : α → ℕ) (xs : List α) (b : α)
    (hpw : (b :: xs).Pairwise (fun p q => idx p < idx q)) :
    (xs.foldl (fun best u => if d u < d best then u else best) b = b ∨
      xs.foldl (fun best u => if d u < d best then u else best) b ∈ xs) ∧
    (∀ u ∈ b :: xs, d (xs.foldl (fun best u => if d u < d best then u else best) b) ≤ d u) ∧
    (∀ u ∈ b :: xs, d u = d (xs.foldl (fun best u => if d u < d best then u else best) b) →
      idx (xs.foldl (fun best u => if d u < d best then u else best) b) ≤ idx u) := by
  induction xs generalizing b with
  | nil =>
    refine ⟨Or.inl rfl, ?_, ?_⟩
    · intro u hu
      rcases List.mem_cons.mp hu with rfl | hu
      · exact le_rfl
      · exact absurd hu (List.not_mem_nil u)
    · intro u hu _
      rcases List.mem_cons.mp hu with rfl | hu
      · exact le_rfl
      · exact absurd hu (List.not_mem_nil u)
  | cons u xs ih =>
    rcases List.pairwise_cons.mp hpw with ⟨hb, htail⟩
    rcases List.pairwise_cons.mp htail with ⟨hu, hxs⟩
    simp only [List.foldl_cons]
    by_cases hdu : d u < d b
    · simp only [if_pos hdu]
      obtain ⟨hm, hmin, htie⟩ := ih u htail
      refine ⟨?_, ?_, ?_⟩
      · refine Or.inr ?_
        rcases hm with h | h
        · rw [h]; exact List.mem_cons_self _ _
        · exact List.mem_cons_of_mem _ h
      · intro v hv
        rcases List.mem_cons.mp hv with rfl | hv
        · exact (hmin u (List.mem_cons_self _ _)).trans hdu.le
        · exact hmin v hv
      · intro v hv heq
        rcases List.mem_cons.mp hv with rfl | hv
        · have h1 := hmin u (List.mem_cons_self _ _)
          exact absurd (h1.trans_lt hdu) (by rw [heq]; exact lt_irrefl _)
        · exact htie v hv heq
    · have hbu : d b ≤ d u := not_lt.mp hdu
      simp only [if_neg hdu]
      have hpw' : (b :: xs).Pairwise (fun p q => idx p < idx q) :=
        List.pairwise_cons.mpr ⟨fun y hy => hb y (List.mem_cons_of_mem _ hy), hxs⟩
      obtain ⟨hm, hmin, htie⟩ := ih b hpw'
      refine ⟨?_, ?_, ?_⟩
      · rcases hm with h | h
        · exact Or.inl h
        · exact Or.inr (List.mem_cons_of_mem _ h)
      · intro v hv
        rcases List.mem_cons.mp hv with rfl | hv
        · exact hmin v (List.mem_cons_self _ _)
        · rcases List.mem_cons.mp hv with rfl | hv'
          · exact (hmin b (List.mem_cons_self _ _)).trans hbu
          · exact hmin v (List.mem_cons_of_mem _ hv')
      · intro v hv heq
        rcases List.mem_cons.mp hv with rfl | hv
        · exact htie v (List.mem_cons_self _ _) heq
        · rcases List.mem_cons.mp hv with rfl | hv'
          · have h1 := hmin b (List.mem_cons_self _ _)
            have hle : d b ≤
                d (xs.foldl (fun best u => if d u < d best then u else best) b) := by
              rw [← heq]; exact hbu
            have heqb := le_antisymm hle h1
            exact (htie b (List.mem_cons_self _ _) heqb).trans
              (hb v (List.mem_cons_self _ _)).le
          · exact htie v (List.mem_cons_of_mem _ hv') heq

lemma mem_availableUnits {ops : TrigOps} {busy : List String} {nowMs : ℚ}
    {u : BaseUnitState} :
    u ∈ CrimesRoute.availableUnits ops busy nowMs ↔
      ∃ i, i < VEHICLE_COUNT ∧ u = Loop.getBaseUnitStateAtTime ops i nowMs ∧
        busy.contains (unitId i) = false := by
  rw [CrimesRoute.availableUnits, List.mem_filter]
  constructor
  · rintro ⟨hmem, hpred⟩
    rw [Loop.getAllBaseUnits, List.mem_map] at hmem
    obtain ⟨i, hi, rfl⟩ := hmem
    rw [List.mem_range] at hi
    refine ⟨i, hi, rfl, ?_⟩
    rw [Bool.not_eq_true'] at hpred
    simpa [id_state] using hpred
  · rintro ⟨i, hi, rfl, hbusy⟩
    refine ⟨?_, ?_⟩
    · rw [Loop.getAllBaseUnits, List.mem_map]
      exact ⟨i, List.mem_range.mpr hi, rfl⟩
    · rw [Bool.not_eq_true']
      simpa [id_state] using hbusy

lemma pairwise_availableUnits (ops : TrigOps) (busy : List String) (nowMs : ℚ) :
    (CrimesRoute.availableUnits ops busy nowMs).Pairwise (fun p q => p.index < q.index) := by
  apply List.Pairwise.filter
  rw [Loop.getAllBaseUnits, List.pairwise_map]
  exact (List.pairwise_lt_range VEHICLE_COUNT).imp (fun h => by simpa [index_state] using h)

/-- C1: whenever some unit's id is outside the busy set, the dispatch in
the crime-creation flow assigns a unit whose id is outside the busy set,
whose distance (as the code computes it, haversine from the incident to
the unit's base position at the dispatch instant) is minimal among all
non-busy units, and which on exact distance ties is the unit of least
index (the first encountered in ascending index order). -/
theorem dispatch_nearest_correct (ops : TrigOps) (busy : List String) (target : Point)
    (nowMs : ℚ)
    (h : ∃ i, i < VEHICLE_COUNT ∧ busy.contains (unitId i) = false) :
    ∃ u, CrimesRoute.assignNearestUnit ops busy target nowMs = some u ∧
      busy.contains u.id = false ∧
      (∀ j, j < VEHICLE_COUNT → busy.contains (unitId j) = false →
        CrimesRoute.distToTarget ops target u ≤
          CrimesRoute.distToTarget ops target (Loop.getBaseUnitStateAtTime ops j nowMs)) ∧
      (∀ j, j < VEHICLE_COUNT → busy.contains (unitId j) = false →
        CrimesRoute.distToTarget ops target (Loop.getBaseUnitStateAtTime ops j nowMs) =
          CrimesRoute.distToTarget ops target u →
        u.index ≤ j) := by
  obtain ⟨i, hi, hbusy⟩ := h
  have hmem : Loop.getBaseUnitStateAtTime ops i nowMs ∈
      CrimesRoute.availableUnits ops busy nowMs :=
    mem_availableUnits.mpr ⟨i, hi, rfl, hbusy⟩
  rcases hav : CrimesRoute.availableUnits ops busy nowMs with _ | ⟨x, xs⟩
  · rw [hav] at hmem
    exact absurd hmem (List.not_mem_nil _)
  · have hpw : (x :: xs).Pairwise (fun p q => p.index < q.index) := by
      have hp := pairwise_availableUnits ops busy nowMs
      rwa [hav] at hp
    obtain ⟨hm, hmin, htie⟩ := foldl_min_first (CrimesRoute.distToTarget ops target)
      BaseUnitState.index xs x hpw
    refine ⟨xs.foldl (fun best u =>
        if CrimesRoute.distToTarget ops target u < CrimesRoute.distToTarget ops target best
        then u else best) x, ?_, ?_, ?_, ?_⟩
    · rw [CrimesRoute.assignNearestUnit, hav]
    · have hrmem : xs.foldl (fun best u =>
          if CrimesRoute.distToTarget ops target u < CrimesRoute.distToTarget ops target best
          then u else best) x ∈ CrimesRoute.availableUnits ops busy nowMs := by
        rw [hav]
        rcases hm with hm | hm
        · rw [hm]; exact List.mem_cons_self _ _
        · exact List.mem_cons_of_mem _ hm
      obtain ⟨j, _, hj, hbj⟩ := mem_availableUnits.mp hrmem
      rw [hj, id_state]
      exact hbj
    · intro j hj hbj
      have hjm : Loop.getBaseUnitStateAtTime ops j nowMs ∈
          CrimesRoute.availableUnits ops busy nowMs :=
        mem_availableUnits.mpr ⟨j, hj, rfl, hbj⟩
      rw [hav] at hjm
      exact hmin _ hjm
    · intro j hj hbj heq
      have hjm : Loop.getBaseUnitStateAtTime ops j nowMs ∈
          CrimesRoute.availableUnits ops busy nowMs :=
        mem_availableUnits.mpr ⟨j, hj, rfl, hbj⟩
      rw [hav] at hjm
      have := htie _ hjm heq
      simpa [index_state] using this

/-- Witness for C1: with an empty busy set every unit is available, and
the dispatch decision satisfies the nearest-unit specification. -/
theorem dispatch_nearest_correct_witness :
    ∃ u, CrimesRoute.assignNearestUnit opsZero [] ⟨0, 0⟩ 0 = some u ∧
      ([] : List String).contains u.id = false ∧
      (∀ j, j < VEHICLE_COUNT → ([] : List String).contains (unitId j) = false →
        CrimesRoute.distToTarget opsZero ⟨0, 0⟩ u ≤
          CrimesRoute.distToTarget opsZero ⟨0, 0⟩ (Loop.getBaseUnitStateAtTime opsZero j 0)) ∧
      (∀ j, j < VEHICLE_COUNT → ([] : List String).contains (unitId j) = false →
        CrimesRoute.distToTarget opsZero ⟨0, 0⟩ (Loop.getBaseUnitStateAtTime opsZero j 0) =
          CrimesRoute.distToTarget opsZero ⟨0, 0⟩ u →
        u.index ≤ j) :=
  dispatch_nearest_correct opsZero [] ⟨0, 0⟩ 0 ⟨0, by decide⟩

/-! ## C5: dispatch with an exhausted fleet -/

/-- C5: the dispatch returns no unit exactly when every fleet id is in
the busy set, and in that case the incident row's `assignedUnitId` and
`assignedAt` are both stored as null. -/
theorem dispatch_exhaustion (ops : TrigOps) (busy : List String) (target : Point)
    (nowMs : ℚ) :
    (CrimesRoute.assignNearestUnit ops busy target nowMs = none ↔
      ∀ i, i < VEHICLE_COUNT → busy.contains (unitId i) = true) ∧
    (CrimesRoute.assignNearestUnit ops busy target nowMs = none →
      CrimesRoute.storedAssignmentFields ops busy target nowMs = (none, none)) := by
  constructor
  · constructor
    · intro hnone i hi
      cases hcb : busy.contains (unitId i) with
      | true => rfl
      | false =>
        exfalso
        have hmem : Loop.getBaseUnitStateAtTime ops i nowMs ∈
            CrimesRoute.availableUnits ops busy nowMs :=
          mem_availableUnits.mpr ⟨i, hi, rfl, hcb⟩
        rcases hav : CrimesRoute.availableUnits ops busy nowMs with _ | ⟨x, xs⟩
        · rw [hav] at hmem
          exact absurd hmem (List.not_mem_nil _)
        · rw [CrimesRoute.assignNearestUnit, hav] at hnone
          exact absurd hnone (by simp)
    · intro hall
      have hempty : CrimesRoute.availableUnits ops busy nowMs = [] := by
        rcases hav : CrimesRoute.availableUnits ops busy nowMs with _ | ⟨x, xs⟩
        · rfl
        · exfalso
          have hx : x ∈ CrimesRoute.availableUnits ops busy nowMs := by
            rw [hav]; exact List.mem_cons_self _ _
          obtain ⟨i, hi, _, hb⟩ := mem_availableUnits.mp hx
          rw [hall i hi] at hb
          exact absurd hb (by simp)
      rw [CrimesRoute.assignNearestUnit, hempty]
  · intro hnone
    rw [CrimesRoute.storedAssignmentFields, hnone]

/-- Witness for C5: the busy set holding every fleet id makes the
dispatch return no unit. -/
theorem dispatch_exhaustion_witness :
    CrimesRoute.assignNearestUnit opsZero ((List.range 80).map unitId) ⟨0, 0⟩ 0 = none :=
  (dispatch_exhaustion opsZero ((List.range 80).map unitId) ⟨0, 0⟩ 0).1.mpr (by decide)

/-! ## C6: unit-id parsing -/

lemma parse_roundtrip : ∀ i, i < VEHICLE_COUNT →
    Loop.parsedUnitIndex (unitId i) = some (i : ℤ) := by decide

/-- C6 (amended): for every valid index, parsing the formatted id returns
that unit's state (never null); and the parser returns null exactly when
the field after the first dash fails to `parseInt` to an integer in
`[0, VEHICLE_COUNT)`. Malformed strings whose second dash-field does
parse in range (such as a wrong prefix, extra zero-padding, or trailing
garbage after the digits) return that unit's state instead of null. -/
theorem id_parse_amended :
    (∀ (ops : TrigOps) (t : ℚ) (i : ℕ), i < VEHICLE_COUNT →
      Loop.getBaseUnitByIdAtTime ops (unitId i) t =
        some (Loop.getBaseUnitStateAtTime ops i t)) ∧
    (∀ (ops : TrigOps) (s : String) (t : ℚ),
      Loop.getBaseUnitByIdAtTime ops s t = none ↔
        ∀ k : ℤ, Loop.parsedUnitIndex s = some k →
          k < 0 ∨ (VEHICLE_COUNT : ℤ) ≤ k) ∧
    (∀ (ops : TrigOps) (s : String) (t : ℚ) (k : ℤ),
      Loop.parsedUnitIndex s = some k →
      ¬(k < 0 ∨ (VEHICLE_COUNT : ℤ) ≤ k) →
      Loop.getBaseUnitByIdAtTime ops s t =
        some (Loop.getBaseUnitStateAtTime ops k.toNat t)) ∧
    (Loop.getBaseUnitByIdAtTime opsZero ("UNIT-007") 0 =
        some (Loop.getBaseUnitStateAtTime opsZero 7 0) ∧
      Loop.getBaseUnitByIdAtTime opsZero ("UNIT-07x") 0 =
        some (Loop.getBaseUnitStateAtTime opsZero 7 0)) := by
  refine ⟨?_, ?_, ?_, rfl, rfl⟩
  · intro ops t i hi
    have hout : ¬((i : ℤ) < 0 ∨ (VEHICLE_COUNT : ℤ) ≤ (i : ℤ)) := by
      have hi' : i < 80 := hi
      simp only [VEHICLE_COUNT]
      omega
    rw [Loop.getBaseUnitByIdAtTime, parse_roundtrip i hi]
    show (if (i : ℤ) < 0 ∨ (VEHICLE_COUNT : ℤ) ≤ (i : ℤ) then none
      else some (Loop.getBaseUnitStateAtTime ops ((i : ℤ)).toNat t)) =
      some (Loop.getBaseUnitStateAtTime ops i t)
    rw [if_neg hout, Int.toNat_natCast]
  · intro ops s t
    rw [Loop.getBaseUnitByIdAtTime]
    cases hp : Loop.parsedUnitIndex s with
    | none => simp
    | some k =>
      show (if k < 0 ∨ (VEHICLE_COUNT : ℤ) ≤ k then none
        else some (Loop.getBaseUnitStateAtTime ops k.toNat t)) = none ↔ _
      by_cases hout : k < 0 ∨ (VEHICLE_COUNT : ℤ) ≤ k
      · rw [if_pos hout]
        constructor
        · intro _ k' hk'
          injection hk' with hkk
          rw [← hkk]
          exact hout
        · intro _
          rfl
      · rw [if_neg hout]
        constructor
        · intro hcontra
          exact absurd hcontra (by simp)
        · intro hall
          exact absurd (hall k rfl) hout
  · intro ops s t k hp hout
    rw [Loop.getBaseUnitByIdAtTime, hp]
    show (if k < 0 ∨ (VEHICLE_COUNT : ℤ) ≤ k then none
      else some (Loop.getBaseUnitStateAtTime ops k.toNat t)) =
      some (Loop.getBaseUnitStateAtTime ops k.toNat t)
    rw [if_neg hout]

/-- C6 counterexample: `"FOO-07"` is not a well-formed `UNIT-NN`
identifier of any fleet index, yet parsing it does not yield "not found":
it returns unit 7's state — the parser never checks the prefix. -/
theorem id_parse_counterexample :
    (∀ i, i < VEHICLE_COUNT → ("FOO-07" : String) ≠ unitId i) ∧
    Loop.getBaseUnitByIdAtTime opsZero ("FOO-07") 0 =
      some (Loop.getBaseUnitStateAtTime opsZero 7 0) := by
  constructor
  · decide
  · rfl

/-- Witness for C6: the round-trip at a concrete valid index. -/
theorem id_parse_amended_witness :
    Loop.getBaseUnitByIdAtTime opsZero (unitId 3) 0 =
      some (Loop.getBaseUnitStateAtTime opsZero 3 0) :=
  id_parse_amended.1 opsZero 0 3 (by decide)

/-! ## C8: duplicate assignments resolve to the most recent -/

lemma assignStep_not_mem (nowMs : ℚ) (m : String → Option VehiclesRoute.Assignment)
    (row : VehiclesRoute.CrimeRow) (u : String) (h : row.assignedUnitId ≠ some u) :
    VehiclesRoute.assignStep nowMs m row u = m u := by
  unfold VehiclesRoute.assignStep
  cases hr : row.assignedUnitId with
  | none => rfl
  | some v =>
    have hvu : u ≠ v := by
      intro he
      exact h (by rw [hr, he])
    try dsimp only
    cases hm : m v with
    | none =>
      try dsimp only
      rw [if_neg hvu]
    | some e =>
      try dsimp only
      by_cases hlt : e.assignedAtMs < (VehiclesRoute.assignmentOfRow row nowMs).assignedAtMs
      · rw [if_pos hlt]
        try dsimp only
        rw [if_neg hvu]
      · rw [if_neg hlt]

lemma assignStep_mem (nowMs : ℚ) (m : String → Option VehiclesRoute.Assignment)
    (row : VehiclesRoute.CrimeRow) (u : String) (h : row.assignedUnitId = some u) :
    ∃ e', VehiclesRoute.assignStep nowMs m row u = some e' ∧
      VehiclesRoute.effectiveAssignedAtMs row nowMs ≤ e'.assignedAtMs ∧
      (∀ e, m u = some e → e.assignedAtMs ≤ e'.assignedAtMs) ∧
      (e' = VehiclesRoute.assignmentOfRow row nowMs ∨ m u = some e') := by
  unfold VehiclesRoute.assignStep
  rw [h]
  try dsimp only
  cases hm : m u with
  | none =>
    refine ⟨VehiclesRoute.assignmentOfRow row nowMs, ?_, le_refl _, ?_, Or.inl rfl⟩
    · try dsimp only
      rw [if_pos rfl]
    · intro e he
      exact absurd he (by simp)
  | some e =>
    try dsimp only
    by_cases hlt : e.assignedAtMs < (VehiclesRoute.assignmentOfRow row nowMs).assignedAtMs
    · refine ⟨VehiclesRoute.assignmentOfRow row nowMs, ?_, le_refl _, ?_, Or.inl rfl⟩
      · try dsimp only
        rw [if_pos hlt]
        try dsimp only
        rw [if_pos rfl]
      · intro e0 he0
        injection he0 with he0
        rw [he0] at hlt
        exact hlt.le
    · refine ⟨e, ?_, not_lt.mp hlt, ?_, Or.inr rfl⟩
      · try dsimp only
        rw [if_neg hlt]
        exact hm
      · intro e0 he0
        injection he0 with he0
        rw [← he0]

lemma assignFold_spec (nowMs : ℚ) (rows : List VehiclesRoute.CrimeRow) :
    ∀ (m : String → Option VehiclesRoute.Assignment) (u : String)
      (a : VehiclesRoute.Assignment),
      (rows.foldl (VehiclesRoute.assignStep nowMs) m) u = some a →
      (∀ r ∈ rows, r.assignedUnitId = some u →
        VehiclesRoute.effectiveAssignedAtMs r nowMs ≤ a.assignedAtMs) ∧
      (∀ e, m u = some e → e.assignedAtMs ≤ a.assignedAtMs) ∧
      ((∃ r ∈ rows, r.assignedUnitId = some u ∧
        a = VehiclesRoute.assignmentOfRow r nowMs) ∨ m u = some a) := by
  induction rows with
  | nil =>
    intro m u a h
    refine ⟨?_, ?_, Or.inr h⟩
    · intro r hr
      exact absurd hr (List.not_mem_nil r)
    · intro e he
      rw [List.foldl_nil] at h
      rw [he] at h
      injection h with h
      rw [h]
  | cons row rows ih =>
    intro m u a h
    rw [List.foldl_cons] at h
    obtain ⟨h1, h2, h3⟩ := ih (VehiclesRoute.assignStep nowMs m row) u a h
    by_cases hmatch : row.assignedUnitId = some u
    · obtain ⟨e', hstep, heff, hmono, hdisj⟩ := assignStep_mem nowMs m row u hmatch
      have he'a : e'.assignedAtMs ≤ a.assignedAtMs := h2 e' hstep
      refine ⟨?_, ?_, ?_⟩
      · intro r hr hru
        rcases List.mem_cons.mp hr with rfl | hr
        · exact heff.trans he'a
        · exact h1 r hr hru
      · intro e he
        exact (hmono e he).trans he'a
      · rcases h3 with ⟨r, hr, hru, ha⟩ | h3
        · exact Or.inl ⟨r, List.mem_cons_of_mem _ hr, hru, ha⟩
        · rw [hstep] at h3
          injection h3 with h3
          rcases hdisj with hd | hd
          · exact Or.inl ⟨row, List.mem_cons_self _ _, hmatch, by rw [← h3, hd]⟩
          · exact Or.inr (by rw [hd, h3])
    · have hstep := assignStep_not_mem nowMs m row u hmatch
      refine ⟨?_, ?_, ?_⟩
      · intro r hr hru
        rcases List.mem_cons.mp hr with rfl | hr
        · exact absurd hru hmatch
        · exact h1 r hr hru
      · intro e he
        refine h2 e ?_
        rw [hstep]
        exact he
      · rcases h3 with ⟨r, hr, hru, ha⟩ | h3
        · exact Or.inl ⟨r, List.mem_cons_of_mem _ hr, hru, ha⟩
        · refine Or.inr ?_
          rw [← hstep]
          exact h3

/-- C8: when the store holds several assignments for the same unit id,
the rendering core resolves the anomaly deterministically: the assignment
it keeps comes from a row assigned to that unit, its timestamp is the
greatest effective `assignedAt` among all such rows, and the rendered
vehicle for that unit projects from exactly that assignment (position and
assigned incident id). -/
theorem latest_assignment_wins (rows : List VehiclesRoute.CrimeRow) (nowMs : ℚ)
    (u : String) (a : VehiclesRoute.Assignment)
    (h : VehiclesRoute.assignmentsByUnit rows nowMs u = some a) :
    (∃ r ∈ rows, r.assignedUnitId = some u ∧
      a = VehiclesRoute.assignmentOfRow r nowMs) ∧
    (∀ r ∈ rows, r.assignedUnitId = some u →
      VehiclesRoute.effectiveAssignedAtMs r nowMs ≤ a.assignedAtMs) ∧
    (∀ (ops : TrigOps) (unit : BaseUnitState), unit.id = u →
      VehiclesRoute.renderVehicle ops rows nowMs unit =
        { id := unit.id,
          lat := (VehiclesRoute.projectedPosition ops unit a.target a.assignedAtMs nowMs).lat,
          lng := (VehiclesRoute.projectedPosition ops unit a.target a.assignedAtMs nowMs).lng,
          routeId := unit.routeId, status := .busy, lastUpdated := nowMs,
          assignedCrimeId := some a.crimeId }) := by
  obtain ⟨h1, _, h3⟩ := assignFold_spec nowMs rows (fun _ => none) u a h
  refine ⟨?_, h1, ?_⟩
  · rcases h3 with h3 | h3
    · exact h3
    · exact absurd h3 (by simp)
  · intro ops unit hid
    rw [VehiclesRoute.renderVehicle, hid, h]

/-- Witness for C8: two rows assign `UNIT-00`; the kept assignment is the
one with the larger timestamp, and the older row's timestamp is bounded
by it. -/
theorem latest_assignment_wins_witness :
    VehiclesRoute.effectiveAssignedAtMs ⟨1, 1, 2, some (unitId 0), some 100⟩ 0 ≤
      (⟨2, ⟨3, 4⟩, 200⟩ : VehiclesRoute.Assignment).assignedAtMs := by
  have h : VehiclesRoute.assignmentsByUnit
      [⟨1, 1, 2, some (unitId 0), some 100⟩, ⟨2, 3, 4, some (unitId 0), some 200⟩] 0
      (unitId 0) = some ⟨2, ⟨3, 4⟩, 200⟩ := by
    rw [VehiclesRoute.assignmentsByUnit, List.foldl_cons, List.foldl_cons, List.foldl_nil]
    rw [VehiclesRoute.assignStep]
    try dsimp only
    rw [VehiclesRoute.assignStep]
    try dsimp only
    rw [if_pos rfl]
    try dsimp only
    have hlt : (VehiclesRoute.assignmentOfRow ⟨1, 1, 2, some (unitId 0), some 100⟩
          0).assignedAtMs <
        (VehiclesRoute.assignmentOfRow ⟨2, 3, 4, some (unitId 0), some 200⟩ 0).assignedAtMs := by
      simp only [VehiclesRoute.assignmentOfRow, VehiclesRoute.effectiveAssignedAtMs,
        Option.getD_some]
      norm_num
    rw [if_pos hlt]
    rw [if_pos rfl]
    simp [VehiclesRoute.assignmentOfRow, VehiclesRoute.effectiveAssignedAtMs]
  exact (latest_assignment_wins
    [⟨1, 1, 2, some (unitId 0), some 100⟩, ⟨2, 3, 4, some (unitId 0), some 200⟩] 0
    (unitId 0) ⟨2, ⟨3, 4⟩, 200⟩ h).2.1 ⟨1, 1, 2, some (unitId 0), some 100⟩
    (List.mem_cons_self _ _) rfl

/-! ## C9: segment-walk totality and fallback -/

lemma routeMetaFor_mem (ops : TrigOps) (i : ℕ) :
    Loop.routeMetaFor ops i ∈ ROUTE_META ops := by
  rw [Loop.routeMetaFor]
  have hpos : 0 < (ROUTE_META ops).length := by
    simp [ROUTE_META, PATROL_ROUTES, SUBURB_BOXES]
  have hlt : i % (ROUTE_META ops).length < (ROUTE_META ops).length := Nat.mod_lt _ hpos
  rw [List.getD_eq_getElem?_getD, List.getElem?_eq_getElem hlt]
  exact List.getElem_mem hlt

lemma routeMetaFor_points_closed (ops : TrigOps) (i : ℕ) :
    (Loop.routeMetaFor ops i).route.points.getLast? =
      some ((Loop.routeMetaFor ops i).route.points.getD 0 ⟨0, 0⟩) := by
  have hmem := routeMetaFor_mem ops i
  rw [ROUTE_META, List.mem_map] at hmem
  obtain ⟨route, hroute, hEq⟩ := hmem
  rw [PATROL_ROUTES, List.mem_map] at hroute
  obtain ⟨box, _, hbox⟩ := hroute
  rw [← hEq, ← hbox]
  rfl

/-- C9: the segment walk is total — and whenever no segment resolves the
remaining distance (the floating-point-drift fallback of the source), the
returned position is the route's first point, which for the closed box
routes equals the route's final defined point. -/
theorem walk_fallback_first_point (ops : TrigOps) (i : ℕ) (t : ℚ)
    (h : Loop.walkSegments (Loop.routeMetaFor ops i).segments
      (Loop.travelledMetres ops i t) = none) :
    ((Loop.getBaseUnitStateAtTime ops i t).lat =
        ((Loop.routeMetaFor ops i).route.points.getD 0 ⟨0, 0⟩).lat ∧
      (Loop.getBaseUnitStateAtTime ops i t).lng =
        ((Loop.routeMetaFor ops i).route.points.getD 0 ⟨0, 0⟩).lng) ∧
    (Loop.routeMetaFor ops i).route.points.getLast? =
      some ((Loop.routeMetaFor ops i).route.points.getD 0 ⟨0, 0⟩) := by
  refine ⟨⟨?_, ?_⟩, routeMetaFor_points_closed ops i⟩ <;>
    simp only [Loop.getBaseUnitStateAtTime, h, Option.getD_none]

lemma hav_opsZero (a b : Point) : haversineDistanceMetres opsZero a b = 0 := by
  simp only [haversineDistanceMetres, opsZero, EARTH_RADIUS_M]
  norm_num

lemma segments_opsZero_0 : (Loop.routeMetaFor opsZero 0).segments =
    [⟨⟨-36.8425, 174.755⟩, ⟨-36.8425, 174.771⟩, 0⟩,
     ⟨⟨-36.8425, 174.771⟩, ⟨-36.8545, 174.771⟩, 0⟩,
     ⟨⟨-36.8545, 174.771⟩, ⟨-36.8545, 174.755⟩, 0⟩,
     ⟨⟨-36.8545, 174.755⟩, ⟨-36.8425, 174.755⟩, 0⟩] := by
  have hz : Loop.routeMetaFor opsZero 0 =
      buildRouteMeta opsZero (makeBoxRoute ⟨"CBD", ⟨-36.8485, 174.763⟩, 0.006, 0.008⟩) := by
    simp only [Loop.routeMetaFor, ROUTE_META, PATROL_ROUTES, SUBURB_BOXES, List.map_cons,
      List.length_cons, List.length_nil]
    norm_num [List.getD, List.get?]
  rw [hz]
  simp only [buildRouteMeta, makeBoxRoute, consecPairs, List.map_cons, List.map_nil, hav_opsZero]
  norm_num

/-- Witness for C9: under the all-zero trig valuation every segment has
length zero, the walk resolves nowhere, and the fallback applies. -/
theorem walk_fallback_first_point_witness :
    Loop.walkSegments (Loop.routeMetaFor opsZero 0).segments
        (Loop.travelledMetres opsZero 0 0) = none ∧
      ((Loop.getBaseUnitStateAtTime opsZero 0 0).lat =
          ((Loop.routeMetaFor opsZero 0).route.points.getD 0 ⟨0, 0⟩).lat ∧
        (Loop.getBaseUnitStateAtTime opsZero 0 0).lng =
          ((Loop.routeMetaFor opsZero 0).route.points.getD 0 ⟨0, 0⟩).lng) ∧
      (Loop.routeMetaFor opsZero 0).route.points.getLast? =
        some ((Loop.routeMetaFor opsZero 0).route.points.getD 0 ⟨0, 0⟩) := by
  have hnone : Loop.walkSegments (Loop.routeMetaFor opsZero 0).segments
      (Loop.travelledMetres opsZero 0 0) = none := by
    rw [segments_opsZero_0]
    simp [Loop.walkSegments]
  exact ⟨hnone, walk_fallback_first_point opsZero 0 0 hnone⟩

/-! ## C10: fleet-status output invariant -/

lemma assignFold_isSome (nowMs : ℚ) (rows : List VehiclesRoute.CrimeRow) :
    ∀ (m : String → Option VehiclesRoute.Assignment) (u : String),
      ((rows.foldl (VehiclesRoute.assignStep nowMs) m) u).isSome = true ↔
        ((m u).isSome = true ∨ ∃ r ∈ rows, r.assignedUnitId = some u) := by
  induction rows with
  | nil =>
    intro m u
    simp
  | cons row rows ih =>
    intro m u
    rw [List.foldl_cons, ih]
    by_cases hmatch : row.assignedUnitId = some u
    · obtain ⟨e', hstep, _, _, _⟩ := assignStep_mem nowMs m row u hmatch
      rw [hstep]
      constructor
      · intro _
        exact Or.inr ⟨row, List.mem_cons_self _ _, hmatch⟩
      · intro _
        exact Or.inl rfl
    · rw [assignStep_not_mem nowMs m row u hmatch]
      constructor
      · rintro (hl | ⟨r, hr, hru⟩)
        · exact Or.inl hl
        · exact Or.inr ⟨r, List.mem_cons_of_mem _ hr, hru⟩
      · rintro (hl | ⟨r, hr, hru⟩)
        · exact Or.inl hl
        · rcases List.mem_cons.mp hr with rfl | hr
          · exact absurd hru hmatch
          · exact Or.inr ⟨r, hr, hru⟩

lemma assignmentsByUnit_isSome (nowMs : ℚ) (rows : List VehiclesRoute.CrimeRow)
    (u : String) :
    (VehiclesRoute.assignmentsByUnit rows nowMs u).isSome = true ↔
      ∃ r ∈ rows, r.assignedUnitId = some u := by
  rw [VehiclesRoute.assignmentsByUnit, assignFold_isSome nowMs rows (fun _ => none) u]
  simp

lemma policeVehiclesGET_getD (ops : TrigOps) (rows : List VehiclesRoute.CrimeRow)
    (nowMs : ℚ) (i : ℕ) (hi : i < VEHICLE_COUNT) :
    (VehiclesRoute.policeVehiclesGET ops rows nowMs).getD i
        ⟨"", 0, 0, "", .available, 0, none⟩ =
      VehiclesRoute.renderVehicle ops rows nowMs (Loop.getBaseUnitStateAtTime ops i nowMs) := by
  rw [VehiclesRoute.policeVehiclesGET, Loop.getAllBaseUnits, List.map_map,
    List.getD_eq_getElem?_getD, List.getElem?_map, List.getElem?_range hi]
  rfl

/-- C10: the fleet-status endpoint returns exactly one entry per unit
index `0..79`, in ascending index order (the `i`-th entry carries the
`i`-th unit id); an entry is busy with a defined `assignedCrimeId`
exactly when some crime row's `assignedUnitId` equals that unit's id;
otherwise it is available, carries no crime id, and sits at the unit's
base patrol position at the query time. -/
theorem fleet_status_invariant (ops : TrigOps) (rows : List VehiclesRoute.CrimeRow)
    (nowMs : ℚ) :
    (VehiclesRoute.policeVehiclesGET ops rows nowMs).length = VEHICLE_COUNT ∧
    ∀ i, i < VEHICLE_COUNT →
      ((VehiclesRoute.policeVehiclesGET ops rows nowMs).getD i
          ⟨"", 0, 0, "", .available, 0, none⟩).id = unitId i ∧
      ((((VehiclesRoute.policeVehiclesGET ops rows nowMs).getD i
            ⟨"", 0, 0, "", .available, 0, none⟩).status = VehiclesRoute.Status.busy ∧
          (((VehiclesRoute.policeVehiclesGET ops rows nowMs).getD i
            ⟨"", 0, 0, "", .available, 0, none⟩).assignedCrimeId).isSome = true) ↔
        ∃ r ∈ rows, r.assignedUnitId = some (unitId i)) ∧
      ((¬ ∃ r ∈ rows, r.assignedUnitId = some (unitId i)) →
        ((VehiclesRoute.policeVehiclesGET ops rows nowMs).getD i
            ⟨"", 0, 0, "", .available, 0, none⟩).status = VehiclesRoute.Status.available ∧
        ((VehiclesRoute.policeVehiclesGET ops rows nowMs).getD i
            ⟨"", 0, 0, "", .available, 0, none⟩).assignedCrimeId = none ∧
        ((VehiclesRoute.policeVehiclesGET ops rows nowMs).getD i
            ⟨"", 0, 0, "", .available, 0, none⟩).lat =
          (Loop.getBaseUnitStateAtTime ops i nowMs).lat ∧
        ((VehiclesRoute.policeVehiclesGET ops rows nowMs).getD i
            ⟨"", 0, 0, "", .available, 0, none⟩).lng =
          (Loop.getBaseUnitStateAtTime ops i nowMs).lng) := by
  constructor
  · simp [VehiclesRoute.policeVehiclesGET, Loop.getAllBaseUnits]
  · intro i hi
    rw [policeVehiclesGET_getD ops rows nowMs i hi]
    have hlook := assignmentsByUnit_isSome nowMs rows (unitId i)
    rw [VehiclesRoute.renderVehicle, id_state]
    cases hcase : VehiclesRoute.assignmentsByUnit rows nowMs (unitId i) with
    | none =>
      rw [hcase] at hlook
      have hnorow : ¬ ∃ r ∈ rows, r.assignedUnitId = some (unitId i) := by
        rw [← hlook]
        simp
      try dsimp only
      refine ⟨rfl, ?_, ?_⟩
      · constructor
        · rintro ⟨hst, _⟩
          exact absurd hst (by simp)
        · intro hr
          exact absurd hr hnorow
      · intro _
        exact ⟨rfl, rfl, rfl, rfl⟩
    | some a =>
      rw [hcase] at hlook
      have hrow : ∃ r ∈ rows, r.assignedUnitId = some (unitId i) := by
        rw [← hlook]
        rfl
      try dsimp only
      refine ⟨rfl, ?_, ?_⟩
      · constructor
        · intro _
          exact hrow
        · intro _
          exact ⟨rfl, rfl⟩
      · intro hnot
        exact absurd hrow hnot

/-- Witness for C10: with an empty store every entry of the fleet-status
output is available and keeps its base patrol position; the first entry
carries the first unit id. -/
theorem fleet_status_invariant_witness :
    ((VehiclesRoute.policeVehiclesGET opsZero [] 5).getD 0
        ⟨"", 0, 0, "", .available, 0, none⟩).id = unitId 0 ∧
    ((VehiclesRoute.policeVehiclesGET opsZero [] 5).getD 0
        ⟨"", 0, 0, "", .available, 0, none⟩).status = VehiclesRoute.Status.available := by
  have h := (fleet_status_invariant opsZero [] 5).2 0 (by decide)
  exact ⟨h.1, (h.2.2 (by simp)).1⟩

/-- Witness for C7: one full loop period on a route of positive total
length leaves the unit's state unchanged. -/
theorem loop_periodicity_witness :
    Loop.getBaseUnitStateAtTime ops500 2
        (0 + 1000 * (Loop.routeMetaFor ops500 2).totalLength / getSpeedMSForIndex 2) =
      Loop.getBaseUnitStateAtTime ops500 2 0 :=
  loop_periodicity ops500 2 0 le_rfl (by rw [totalLength_ops500_2]; norm_num)
